import Mathlib

/-!
Verification of the neferus webhook-to-IRC bridge.

The repository contains two parallel services: an aiohttp-based daemon
(`neferus/webhook.py` + `neferus/irc.py`, embedded below in namespace `WH`
resp. `IRC`) and an Azure Functions port (`function_app.py`, embedded in
namespace `FA`).  Python dictionaries/JSON values are embedded as the
`JValue` type; Python exceptions are embedded as `Except String`; byte
strings are embedded as `List Nat` with every element < 256.
-/

/-- Rotate a 32-bit word left by `k` bits (`k < 32`). -/
def rotl (k n : Nat) : Nat := ((n <<< k) ||| (n >>> (32 - k))) &&& 0xFFFFFFFF

/-- UTF-8 encoding of a single character, as Python `str.encode()` produces. -/
def encodeChar (c : Char) : List Nat :=
  let n := c.toNat
  if n < 0x80 then [n]
  else if n < 0x800 then [0xC0 ||| (n >>> 6), 0x80 ||| (n &&& 0x3F)]
  else if n < 0x10000 then
    [0xE0 ||| (n >>> 12), 0x80 ||| ((n >>> 6) &&& 0x3F), 0x80 ||| (n &&& 0x3F)]
  else
    [0xF0 ||| (n >>> 18), 0x80 ||| ((n >>> 12) &&& 0x3F),
     0x80 ||| ((n >>> 6) &&& 0x3F), 0x80 ||| (n &&& 0x3F)]

/-- UTF-8 encoding of a string (Python `str.encode()`). -/
def utf8Bytes (s : String) : List Nat :=
  (s.data.map encodeChar).flatten

/-- Lowercase hexadecimal digit for a value < 16, as Python `bytes.hex()` uses. -/
def hexDigit (n : Nat) : Char :=
  if n < 10 then Char.ofNat (48 + n) else Char.ofNat (87 + n)

/-- Lowercase hex rendering of a byte string, mirroring Python `bytes.hex()`. -/
def hexOfBytes (bs : List Nat) : String :=
  ⟨(bs.map (fun b => [hexDigit (b / 16), hexDigit (b % 16)])).flatten⟩

/-- SHA-1 message padding: append `0x80`, zero bytes up to 56 mod 64, then the
bit length as an 8-byte big-endian integer. -/
def sha1Pad (msg : List Nat) : List Nat :=
  let len := msg.length
  let z := (120 - ((len + 1) % 64)) % 64
  msg ++ [0x80] ++ List.replicate z 0 ++
    (List.range 8).map (fun i => ((8 * len) >>> (8 * (7 - i))) &&& 0xFF)

/-- The 64-byte chunks of a padded SHA-1 message. -/
def sha1Chunks (p : List Nat) : List (List Nat) :=
  (List.range (p.length / 64)).map (fun i => (p.drop (64 * i)).take 64)

/-- The sixteen initial 32-bit big-endian words of a 64-byte chunk. -/
def sha1Words16 (chunk : List Nat) : Array Nat :=
  ((List.range 16).map (fun j =>
    (chunk.getD (4 * j) 0) <<< 24 ||| (chunk.getD (4 * j + 1) 0) <<< 16 |||
    (chunk.getD (4 * j + 2) 0) <<< 8 ||| chunk.getD (4 * j + 3) 0)).toArray

/-- Extension of the sixteen chunk words to the eighty SHA-1 schedule words. -/
def sha1Extend (w : Array Nat) : Array Nat :=
  (List.range 64).foldl (fun w _ =>
    w.push (rotl 1 ((w.getD (w.size - 3) 0) ^^^ (w.getD (w.size - 8) 0) ^^^
                    (w.getD (w.size - 14) 0) ^^^ (w.getD (w.size - 16) 0)))) w

/-- One SHA-1 compression of a 64-byte chunk into the running state. -/
def sha1Compress (h : Nat × Nat × Nat × Nat × Nat) (chunk : List Nat) :
    Nat × Nat × Nat × Nat × Nat :=
  let w := sha1Extend (sha1Words16 chunk)
  let (h0, h1, h2, h3, h4) := h
  let st := (List.range 80).foldl (fun st i =>
    let (a, b, c, d, e) := st
    let fk :=
      if i < 20 then ((b &&& c) ||| ((b ^^^ 0xFFFFFFFF) &&& d), 0x5A827999)
      else if i < 40 then (b ^^^ c ^^^ d, 0x6ED9EBA1)
      else if i < 60 then ((b &&& c) ||| (b &&& d) ||| (c &&& d), 0x8F1BBCDC)
      else (b ^^^ c ^^^ d, 0xCA62C1D6)
    let temp := (rotl 5 a + fk.1 + e + fk.2 + w.getD i 0) % 4294967296
    (temp, a, rotl 30 b, c, d)) (h0, h1, h2, h3, h4)
  ((h0 + st.1) % 4294967296, (h1 + st.2.1) % 4294967296,
   (h2 + st.2.2.1) % 4294967296, (h3 + st.2.2.2.1) % 4294967296,
   (h4 + st.2.2.2.2) % 4294967296)

/-- Big-endian 4-byte rendering of a 32-bit word. -/
def word32Bytes (n : Nat) : List Nat :=
  [(n >>> 24) &&& 0xFF, (n >>> 16) &&& 0xFF, (n >>> 8) &&& 0xFF, n &&& 0xFF]

/-- SHA-1 digest of a byte string (Python `hashlib.sha1(msg).digest()`). -/
def sha1 (msg : List Nat) : List Nat :=
  let init := (0x67452301, 0xEFCDAB89, 0x98BADCFE, 0x10325476, 0xC3D2E1F0)
  let h := (sha1Chunks (sha1Pad msg)).foldl sha1Compress init
  word32Bytes h.1 ++ word32Bytes h.2.1 ++ word32Bytes h.2.2.1 ++
    word32Bytes h.2.2.2.1 ++ word32Bytes h.2.2.2.2

/-- HMAC-SHA1 of a message under a key, mirroring Python
`hmac.digest(key, msg, sha1)` with the SHA-1 block size of 64 bytes. -/
def hmacSha1 (key msg : List Nat) : List Nat :=
  let k0 := if 64 < key.length then sha1 key else key
  let k1 := k0 ++ List.replicate (64 - k0.length) 0
  sha1 ((k1.map (· ^^^ 0x5C)) ++ sha1 ((k1.map (· ^^^ 0x36)) ++ msg))

/-- Splitting a character list at every occurrence of a separator, mirroring
Python `str.split(sep)` for a one-character separator: the result always has
one more element than the number of separator occurrences, and `"".split(sep)`
gives `[""]`. -/
def splitChar (sep : Char) : List Char → List (List Char)
  | [] => [[]]
  | x :: xs =>
    match splitChar sep xs with
    | [] => [[]]
    | h :: t => if x = sep then [] :: h :: t else (x :: h) :: t

/-- Python `str.split(sep)` for a one-character separator, on strings. -/
def pySplit (s : String) (sep : Char) : List String :=
  (splitChar sep s.data).map (fun l => ⟨l⟩)

/-- Joining character lists with a separator, mirroring Python
`sep.join(parts)` for a one-character separator. -/
def joinChar (sep : Char) : List (List Char) → List Char
  | [] => []
  | [l] => l
  | l :: ls => l ++ sep :: joinChar sep ls

/-- Python `"\n".join(parts)` on strings, as the push handlers use it. -/
def pyJoinNL (parts : List String) : String :=
  ⟨joinChar '\n' (parts.map String.data)⟩

/-- Python `s.find("\n")`: the index of the first newline, with `none`
standing for the `-1` of a missing occurrence. -/
def pyFindNL : List Char → Option Nat
  | [] => none
  | c :: t => if c = '\n' then some 0 else (pyFindNL t).map (· + 1)

/-- First line of a commit message, mirroring the source's
`newline_idx = commit_msg.find("\n"); if newline_idx != -1:
commit_msg = commit_msg[:newline_idx]`. -/
def pyFirstLine (s : String) : String :=
  match pyFindNL s.data with
  | some i => ⟨s.data.take i⟩
  | none => s

/-- Python string slice `s[:n]`. -/
def strTake (n : Nat) (s : String) : String := ⟨s.data.take n⟩

/-- Python slice `s[::-1]` reversing a string. -/
def pyReverse (s : String) : String := ⟨s.data.reverse⟩

/-- The rot13 substitution on a single character, as Python
`codecs.encode(-, "rot13")` applies it: ASCII letters are rotated by 13,
all other characters are unchanged. -/
def rot13Char (c : Char) : Char :=
  let n := c.toNat
  if 97 ≤ n ∧ n ≤ 122 then Char.ofNat (97 + (n - 97 + 13) % 26)
  else if 65 ≤ n ∧ n ≤ 90 then Char.ofNat (65 + (n - 65 + 13) % 26)
  else c

/-- Python `codecs.encode(s, "rot13")`. -/
def rot13 (s : String) : String := ⟨s.data.map rot13Char⟩

/-- JSON values as Python's `json` module produces them: strings, integers,
booleans, null, arrays and string-keyed objects.  (JSON numbers in the
webhook payloads that matter here are integers.) -/
inductive JValue where
  | str (s : String)
  | num (n : Int)
  | bool (b : Bool)
  | null
  | arr (elems : List JValue)
  | obj (fields : List (String × JValue))

/-- Python subscript `event[k]` on a JSON value: a key lookup on an object
(first binding wins), `KeyError` when the key is missing, `TypeError` when
the value is not an object. -/
def JValue.get : JValue → String → Except String JValue
  | .obj fields, k =>
    match fields.lookup k with
    | some v => .ok v
    | none => .error ("KeyError: " ++ k)
  | _, _ => .error "TypeError: value is not subscriptable by a string"

/-- Python `str()` conversion as used by the f-string interpolations in the
handlers.  Container values are rendered in abbreviated form: no theorem in
this development interpolates a container value. -/
def pyStr : JValue → String
  | .str s => s
  | .num n => toString n
  | .bool b => if b then "True" else "False"
  | .null => "None"
  | .arr _ => "<list>"
  | .obj _ => "<dict>"

/-- Python truthiness of a JSON value. -/
def truthy : JValue → Bool
  | .str s => s ≠ ""
  | .num n => n ≠ 0
  | .bool b => b
  | .null => false
  | .arr l => !l.isEmpty
  | .obj l => !l.isEmpty

/-- Python `len()` on a JSON value: length of an array, string or object;
`TypeError` otherwise. -/
def pyLen : JValue → Except String Nat
  | .arr l => .ok l.length
  | .str s => .ok s.length
  | .obj l => .ok l.length
  | _ => .error "TypeError: value has no len"

/-- Python equality test of a JSON value against a string literal, as used by
`event["action"] == "opened"` and set membership against string sets: only a
string value can compare equal to a string. -/
def JValue.eqStr : JValue → String → Bool
  | .str t, s => t == s
  | _, _ => false

/-- Whether a character-list `needle` occurs inside `hay`, mirroring Python
substring containment. -/
def containsSub (hay needle : List Char) : Bool :=
  (List.range (hay.length + 1)).any (fun i => needle.isPrefixOf (hay.drop i))

/-- Python `k in event` for a string `k`: key containment on an object,
element containment on an array, substring containment on a string,
`TypeError` otherwise. -/
def pyContains (v : JValue) (k : String) : Except String Bool :=
  match v with
  | .obj fields => .ok (fields.any (fun f => f.1 == k))
  | .arr elems => .ok (elems.any (fun e => e.eqStr k))
  | .str s => .ok (containsSub s.data k.data)
  | _ => .error "TypeError: argument is not iterable"

/-- Python subscript `arr[i]` on a JSON array. -/
def pyIndex (v : JValue) (i : Nat) : Except String JValue :=
  match v with
  | .arr l =>
    match l.get? i with
    | some x => .ok x
    | none => .error "IndexError: list index out of range"
  | _ => .error "TypeError: value is not subscriptable by an integer"

/-- Python attribute use `s.find`/`s.split` requiring a string: `AttributeError`
on any non-string value. -/
def JValue.asStr : JValue → Except String String
  | .str s => .ok s
  | _ => .error "AttributeError: value is not a str"

/-- Python slice `x[:7]` as the push handler's `sha` lambda applies it to
`commit["id"]`: slices strings and lists, `TypeError` otherwise. -/
def pySlice7 : JValue → Except String JValue
  | .str s => .ok (.str (strTake 7 s))
  | .arr l => .ok (.arr (l.take 7))
  | _ => .error "TypeError: value is not subscriptable by a slice"

/-- Outcome of request authentication.  The source only returns an HTTP
status; `allowedVerified` marks the branch that passed after a successful
digest comparison and `allowedUnverified` the branch that passed without any
verification (which the sources accompany with a log message). -/
inductive AuthOutcome where
  | allowedVerified
  | allowedUnverified
  | rejected (status : Nat)
deriving DecidableEq

namespace FA

/-- Authentication portion of `function_app._validate_request` (lines
376-395): the configured secret is a string (`""` also stands for an unset
`GITHUB_SECRET`, which the source treats identically via falsiness), the
signature header is `req.headers.get("X-Hub-Signature")`, the body is the
raw request body.  The expected digest is
`f"sha1={hmac.digest(secret.encode(), body, sha1).hex()}"` and is compared
with `hmac.compare_digest`. -/
def validate_auth (secret : String) (gh_digest : Option String)
    (body : List Nat) : AuthOutcome :=
  match gh_digest with
  | some g =>
    if secret = "" then .rejected 500
    else
      let my_digest := "sha1=" ++ hexOfBytes (hmacSha1 (utf8Bytes secret) body)
      if my_digest = g then .allowedVerified else .rejected 403
  | none =>
    if secret ≠ "" then .rejected 403
    else .allowedUnverified

/-- Whole of `function_app._validate_request`: method and event-header checks
followed by `validate_auth`; on success the source returns `HTTPStatus.OK`. -/
def validate_request (secret : String) (method : String)
    (hasEventHeader : Bool) (gh_digest : Option String)
    (body : List Nat) : Nat :=
  if method ≠ "POST" then 405
  else if ¬ hasEventHeader then 400
  else
    match validate_auth secret gh_digest body with
    | .rejected s => s
    | _ => 200

end FA

namespace WH

/-- Authentication portion of `webhook.GitHub._on_request` (lines 151-165):
the configured secret is a byte string (`cfg.getbytes("webhook", "secret")`);
when it is empty (falsy) a present `X-Hub-Signature` is only logged as an
error and the request proceeds unverified. -/
def verify_hmac (secret : List Nat) (gh_digest : Option String)
    (body : List Nat) : AuthOutcome :=
  if secret ≠ [] then
    match gh_digest with
    | none => .rejected 403
    | some g =>
      let my_digest := "sha1=" ++ hexOfBytes (hmacSha1 secret body)
      if my_digest = g then .allowedVerified else .rejected 403
  else
    match gh_digest with
    | some _ => .allowedUnverified
    | none => .allowedUnverified

end WH

/-- Authenticator contract exactly as the specification words it (§4.1),
parameterised by whether the secret is empty/unset and by the expected
`"sha1=..."` signature value for the request body: secret unset and header
absent gives Allowed-Unverified; secret set and header absent gives
Rejected(403); a present header with an empty secret gives Rejected(500);
otherwise the header is compared against the expected signature. -/
def authSpec (secretEmpty : Prop) [Decidable secretEmpty] (expected : String)
    (gh_digest : Option String) : AuthOutcome :=
  match gh_digest with
  | none => if secretEmpty then .allowedUnverified else .rejected 403
  | some g =>
    if secretEmpty then .rejected 500
    else if g = expected then .allowedVerified else .rejected 403

/-- The quote list (`_quotes`) both services use as non-descriptive failure
bodies; identical in `webhook.py` and `function_app.py`. -/
def quotes : List String :=
  ["YOU HAVE DIED OF DYSENTERY",
   "the cake is a lie",
   "War is where the young and stupid are tricked by the old and bitter into killing each other.",
   "I used to be an adventurer like you until I took an arrow to the knee.",
   "welcome to zombocom",
   "Hocus pocus abracadabra arse blathanna.",
   "We understanded"]

/-- Embedding of `random.choice(_quotes)`: the random draw is made explicit
as a parameter `r`. -/
def randomChoice (r : Nat) : String := quotes.getD (r % quotes.length) ""

/-- The `try: _, ref_type, ref_name = event["ref"].split('/')` of both push
handlers, as an exception-producing computation: `KeyError` when `ref` is
missing, `AttributeError` when it is not a string, `ValueError` when the
split does not produce exactly three parts. -/
def tryParseRef (event : JValue) : Except String (String × String) := do
  let refJ ← event.get "ref"
  let s ← refJ.asStr
  match pySplit s '/' with
  | [_, ref_type, ref_name] => .ok (ref_type, ref_name)
  | _ => .error "ValueError: not enough values to unpack"

/-- Ref parsing with the bare `except:` of both push handlers: any failure is
caught and placeholders are substituted, but the warning message itself
evaluates `event['ref']` again, so a missing `ref` key re-raises. -/
def parseRef (event : JValue) : Except String (String × String) :=
  match tryParseRef event with
  | .ok tn => .ok tn
  | .error _ =>
    match event.get "ref" with
    | .ok _ => .ok ("<unknown>", "<unknown>")
    | .error e => .error e

/-- One iteration of the per-commit loop body shared by both push handlers:
`commit["message"]` truncated at its first newline, then
`f"{commit['author']['name']} {sha(commit['id'])} {commit_msg}"` with
`sha = lambda x: x[:7]`. -/
def commitLine (commit : JValue) : Except String String := do
  let commit_msg ← commit.get "message"
  let msg ← commit_msg.asStr
  let truncated := pyFirstLine msg
  let authorJ ← commit.get "author"
  let nameJ ← authorJ.get "name"
  let idJ ← commit.get "id"
  let idSliced ← pySlice7 idJ
  .ok (pyStr nameJ ++ " " ++ pyStr idSliced ++ " " ++ truncated)

/-- The per-commit detail loop `for i in range(k): notifications.append(...)`
shared by both push handlers, producing the appended lines in loop order. -/
def detailLines (commitsArr : JValue) : Nat → Except String (List String)
  | 0 => .ok []
  | k + 1 => do
    let pre ← detailLines commitsArr k
    let commit ← pyIndex commitsArr k
    let line ← commitLine commit
    .ok (pre ++ [line])

/-- The `action` phrase of the pull-request handlers (identical `if/elif`
chain in both sources); `none` is the fall-through `else` for an action the
handler does not act on. -/
def prActionPhrase (event : JValue) (act_key : JValue) :
    Except String (Option String) := do
  if act_key.eqStr "opened" then
    let number ← event.get "number"
    let title ← (← event.get "pull_request").get "title"
    .ok (some ("opened pull request #" ++ pyStr number ++ " (" ++ pyStr title ++ ")"))
  else if act_key.eqStr "closed" then
    let merged ← (← event.get "pull_request").get "merged"
    let number ← event.get "number"
    let title ← (← event.get "pull_request").get "title"
    .ok (some ((if truthy merged then "merged" else "closed") ++
               " pull request #" ++ pyStr number ++ " (" ++ pyStr title ++ ")"))
  else if act_key.eqStr "ready_for_review" then
    let number ← event.get "number"
    let title ← (← event.get "pull_request").get "title"
    .ok (some ("marked pull request #" ++ pyStr number ++ " (" ++ pyStr title ++
               ") ready for review"))
  else if act_key.eqStr "reopened" then
    let number ← event.get "number"
    let title ← (← event.get "pull_request").get "title"
    .ok (some ("reopened pull request #" ++ pyStr number ++ " (" ++ pyStr title ++ ")"))
  else
    .ok none

namespace WH

/-- Module constant `_max_commits = 3` of `webhook.py`. -/
def max_commits : Nat := 3

/-- `GitHub._handle_issue`: returns the notifications passed to
`irc.send_notification` (empty for a skipped action). -/
def handle_issue (event : JValue) : Except String (List String) := do
  let act ← event.get "action"
  if ¬ (act.eqStr "opened" || act.eqStr "deleted" || act.eqStr "closed" ||
        act.eqStr "reopened") then
    return []
  let login ← (← event.get "sender").get "login"
  let number ← (← event.get "issue").get "number"
  let title ← (← event.get "issue").get "title"
  let full_name ← (← event.get "repository").get "full_name"
  let html_url ← (← event.get "issue").get "html_url"
  .ok ["\x02" ++ pyStr login ++ "\x02 has " ++ pyStr act ++ " issue #" ++
       pyStr number ++ " (" ++ pyStr title ++ ") on " ++ pyStr full_name ++
       ": " ++ pyStr html_url]

/-- `GitHub._handle_ping`. -/
def handle_ping (event : JValue) : Except String (List String) := do
  let hasOrg ← pyContains event "organization"
  if hasOrg then
    let login ← (← event.get "organization").get "login"
    .ok ["\x02GitHub\x02 has pinged " ++ pyStr login]
  else
    let hasRepo ← pyContains event "repository"
    if hasRepo then
      let full_name ← (← event.get "repository").get "full_name"
      .ok ["\x02GitHub\x02 has pinged " ++ pyStr full_name]
    else
      .ok ["\x02GitHub\x02 has pinged ?UNKNOWN?"]

/-- `GitHub._handle_pull_request`. -/
def handle_pull_request (event : JValue) : Except String (List String) := do
  let act_key ← event.get "action"
  match ← prActionPhrase event act_key with
  | none => .ok []
  | some action =>
    let login ← (← event.get "sender").get "login"
    let full_name ← (← event.get "repository").get "full_name"
    let html_url ← (← event.get "pull_request").get "html_url"
    .ok ["\x02" ++ pyStr login ++ "\x02 has " ++ action ++ " on " ++
         pyStr full_name ++ ": " ++ pyStr html_url]

/-- `GitHub._handle_push`.  The final `else` raises
`web.HTTPNotImplemented()`, embedded as an error (the ingress catches it). -/
def handle_push (event : JValue) : Except String (List String) := do
  let tn ← parseRef event
  let ref_type := tn.1
  let ref_name := tn.2
  if ref_type = "tags" ∧ ref_name = "last-successful" then
    return []
  let login ← (← event.get "sender").get "login"
  let author := "\x02" ++ pyStr login ++ "\x02"
  let num_commits ← pyLen (← event.get "commits")
  let commits := if num_commits = 1 then "commit" else "commits"
  let forcedJ ← event.get "forced"
  let push_type := if truthy forcedJ then "\x034\x02force-pushed\x0f" else "pushed"
  let ref_msg := if ref_type = "heads" ∨ ref_type = "tags" then "/" ++ ref_name else ""
  let full_name ← (← event.get "repository").get "full_name"
  let ref_path := pyStr full_name ++ ref_msg
  let deletedJ ← event.get "deleted"
  if ref_type = "heads" ∧ ¬ truthy deletedJ then
    let msg ←
      if num_commits ≠ 0 then do
        let compare ← event.get "compare"
        pure (author ++ " has " ++ push_type ++ " " ++ toString num_commits ++
              " " ++ commits ++ " to " ++ ref_path ++ ": " ++ pyStr compare)
      else
        pure (author ++ " has " ++ push_type ++ " to " ++ ref_path)
    let notifications ←
      if ref_type = "heads" ∧ num_commits ≤ max_commits then do
        let details ← detailLines (← event.get "commits") (min num_commits max_commits)
        pure (msg :: details)
      else
        pure [msg]
    .ok [pyJoinNL notifications]
  else if truthy deletedJ then
    .ok [author ++ " has deleted " ++ ref_path]
  else if ref_type = "tags" then
    let html_url ← (← event.get "repository").get "html_url"
    .ok [author ++ " has " ++ push_type ++ " tag " ++ ref_name ++ " to " ++
         ref_path ++ ": " ++ pyStr html_url ++ "/releases/tag/" ++ ref_name]
  else do
    let _ ← event.get "ref"
    .error "HTTPNotImplemented"

/-- The `GitHub._events` dispatch table. -/
def events : List (String × (JValue → Except String (List String))) :=
  [("issues", handle_issue), ("ping", handle_ping),
   ("pull_request", handle_pull_request), ("push", handle_push)]

end WH

/-- The fields of an incoming HTTP request as the two ingress endpoints
consult them.  `json` is the result of the JSON body parse performed by the
HTTP framework (`request.json()` / `req.get_json()`); `event_header` is the
`X-GitHub-Event` header (`none` when absent); `content_type` is only
inspected by the aiohttp service. -/
structure Request where
  method : String
  content_type : String
  event_header : Option String
  signature : Option String
  body : List Nat
  json : Except String JValue

namespace FA

/-- `function_app._handle_issue`: like the webhook variant but a skipped
action returns `HTTPStatus.NOT_IMPLEMENTED` (501); an acted action sends one
notification and returns 202. -/
def handle_issue (event : JValue) : Except String (List String × Nat) := do
  let act ← event.get "action"
  if ¬ (act.eqStr "opened" || act.eqStr "deleted" || act.eqStr "closed" ||
        act.eqStr "reopened") then
    return ([], 501)
  let login ← (← event.get "sender").get "login"
  let number ← (← event.get "issue").get "number"
  let title ← (← event.get "issue").get "title"
  let full_name ← (← event.get "repository").get "full_name"
  let html_url ← (← event.get "issue").get "html_url"
  .ok (["\x02" ++ pyStr login ++ "\x02 has " ++ pyStr act ++ " issue #" ++
        pyStr number ++ " (" ++ pyStr title ++ ") on " ++ pyStr full_name ++
        ": " ++ pyStr html_url], 202)

/-- `function_app._handle_ping`: a second line describes the runtime via
`sys.platform`/`sys.version`; that environment-dependent line is passed in
as the parameter `who`. -/
def handle_ping (who : String) (event : JValue) :
    Except String (List String × Nat) := do
  let hasOrg ← pyContains event "organization"
  if hasOrg then
    let login ← (← event.get "organization").get "login"
    .ok (["\x02GitHub\x02 has pinged " ++ pyStr login ++ "\n" ++ who], 202)
  else
    let hasRepo ← pyContains event "repository"
    if hasRepo then
      let full_name ← (← event.get "repository").get "full_name"
      .ok (["\x02GitHub\x02 has pinged " ++ pyStr full_name ++ "\n" ++ who], 202)
    else
      .ok (["\x02GitHub\x02 has pinged ?UNKNOWN?" ++ "\n" ++ who], 202)

/-- `function_app._handle_pull_request`. -/
def handle_pull_request (event : JValue) : Except String (List String × Nat) := do
  let act_key ← event.get "action"
  match ← prActionPhrase event act_key with
  | none => .ok ([], 501)
  | some action =>
    let login ← (← event.get "sender").get "login"
    let full_name ← (← event.get "repository").get "full_name"
    let html_url ← (← event.get "pull_request").get "html_url"
    .ok (["\x02" ++ pyStr login ++ "\x02 has " ++ action ++ " on " ++
          pyStr full_name ++ ": " ++ pyStr html_url], 202)

/-- `function_app._handle_push`.  `maxC` is
`int(config["MAX_COMMITS_PER_EVENT"])`; the final `else` returns
`HTTPStatus.NOT_IMPLEMENTED`. -/
def handle_push (maxC : Nat) (event : JValue) :
    Except String (List String × Nat) := do
  let tn ← parseRef event
  let ref_type := tn.1
  let ref_name := tn.2
  if ref_type = "tags" ∧ ref_name = "last-successful" then
    return ([], 202)
  let login ← (← event.get "sender").get "login"
  let author := "\x02" ++ pyStr login ++ "\x02"
  let num_commits ← pyLen (← event.get "commits")
  let commits := if num_commits = 1 then "commit" else "commits"
  let forcedJ ← event.get "forced"
  let push_type := if truthy forcedJ then "\x034\x02force-pushed\x0f" else "pushed"
  let ref_msg := if ref_type = "heads" ∨ ref_type = "tags" then "/" ++ ref_name else ""
  let full_name ← (← event.get "repository").get "full_name"
  let ref_path := pyStr full_name ++ ref_msg
  let deletedJ ← event.get "deleted"
  if ref_type = "heads" ∧ ¬ truthy deletedJ then
    let msg ←
      if num_commits ≠ 0 then do
        let compare ← event.get "compare"
        pure (author ++ " has " ++ push_type ++ " " ++ toString num_commits ++
              " " ++ commits ++ " to " ++ ref_path ++ ": " ++ pyStr compare)
      else
        pure (author ++ " has " ++ push_type ++ " to " ++ ref_path)
    let notifications ←
      if ref_type = "heads" ∧ num_commits ≤ maxC then do
        let details ← detailLines (← event.get "commits") (min num_commits maxC)
        pure (msg :: details)
      else
        pure [msg]
    .ok ([pyJoinNL notifications], 202)
  else if truthy deletedJ then
    .ok ([author ++ " has deleted " ++ ref_path], 202)
  else if ref_type = "tags" then
    let html_url ← (← event.get "repository").get "html_url"
    .ok ([author ++ " has " ++ push_type ++ " tag " ++ ref_name ++ " to " ++
          ref_path ++ ": " ++ pyStr html_url ++ "/releases/tag/" ++ ref_name], 202)
  else do
    let _ ← event.get "ref"
    .ok ([], 501)

/-- The `_handlers` dispatch table of `function_app.py`. -/
def handlers (who : String) (maxC : Nat) :
    List (String × (JValue → Except String (List String × Nat))) :=
  [("issues", handle_issue), ("ping", handle_ping who),
   ("pull_request", handle_pull_request), ("push", handle_push maxC)]

end FA

/-- A failure mode of `function_app._main`: a timeout from one of the three
`asyncio.wait_for` calls, or a propagating Python exception. -/
inductive MainErr where
  | timeout
  | exn (msg : String)

namespace FA

/-- `function_app._main` after config load: validation, dispatch, then the
handler; the delivered notifications are carried alongside the returned
status, and a handler exception (or a JSON parse failure inside
`req.get_json()`) propagates out as `MainErr.exn`. -/
def main_inner (secret : String) (maxC : Nat) (who : String) (req : Request) :
    Except MainErr (List String × Nat) :=
  let status := validate_request secret req.method req.event_header.isSome
    req.signature req.body
  if ¬ (200 ≤ status ∧ status < 300) then .ok ([], status)
  else
    match req.event_header with
    | none => .ok ([], 501)
    | some et =>
      match (handlers who maxC).lookup et with
      | none => .ok ([], 501)
      | some handler =>
        match req.json with
        | .error e => .error (.exn e)
        | .ok event =>
          match handler event with
          | .error e => .error (.exn e)
          | .ok (sent, st) => .ok (sent, st)

/-- The HTTP response the Azure function returns: a status code and an
optional body (`None` on success). -/
structure HttpResponse where
  status : Nat
  body : Option String
deriving DecidableEq

/-- The `main` wrapper of `function_app.py`: `asyncio.TimeoutError` becomes
504, any other exception becomes 500, and a returned status gets an empty
body when it `is_success` and a random quote otherwise. -/
def fn_main (res : Except MainErr (List String × Nat)) (r : Nat) : HttpResponse :=
  match res with
  | .error .timeout => ⟨504, some (randomChoice r)⟩
  | .error (.exn _) => ⟨500, some (randomChoice r)⟩
  | .ok (_, status) =>
    ⟨status, if 200 ≤ status ∧ status < 300 then none else some (randomChoice r)⟩

/-- The whole Azure function endpoint on the non-timeout path. -/
def main (secret : String) (maxC : Nat) (who : String) (req : Request)
    (r : Nat) : HttpResponse :=
  fn_main (main_inner secret maxC who req) r

end FA

namespace WH

/-- The HTTP response of the aiohttp service, together with the
notifications the handler delivered to the IRC sink. -/
structure WebResponse where
  status : Nat
  text : String
  sent : List String
deriving DecidableEq

/-- `GitHub._on_request`.  Responses raised as aiohttp `HTTPException`s
carry that framework's default body `f"{status}: {reason}"`; the 405 path
answers with a random quote, and the bare `except` around the handler turns
any handler exception (including the `HTTPNotImplemented` raised by
`_handle_push`) into a 500. -/
def on_request (secret : List Nat) (req : Request) (r : Nat) : WebResponse :=
  if req.method ≠ "POST" then ⟨405, randomChoice r, []⟩
  else if req.content_type ≠ "application/json" then ⟨400, "400: Bad Request", []⟩
  else
    match req.event_header with
    | none => ⟨400, "400: Bad Request", []⟩
    | some event_type =>
      if event_type = "" then ⟨400, "400: Bad Request", []⟩
      else
        match verify_hmac secret req.signature req.body with
        | .rejected _ => ⟨403, "403: Forbidden", []⟩
        | _ =>
          match req.json with
          | .error _ => ⟨400, "400: Bad Request", []⟩
          | .ok event =>
            match events.lookup event_type with
            | none => ⟨501, "501: Not Implemented", []⟩
            | some handler =>
              match handler event with
              | .error _ => ⟨500, "500: Internal Server Error", []⟩
              | .ok sent => ⟨202, "Accepted", sent⟩

end WH

namespace IRC

/-- The external pydle primitive used by `IRCBot.send_notification`
(`self.message`) and `IRCClient.send_notification` (`self.notice`).
Modelled from the pydle library the sources delegate to: pydle strips
carriage returns, splits the text on newlines and sends one protocol
message per resulting line — the behaviour the docstring of
`send_notification` relies on ("Multiple messages may be sent by separating
them with newlines"). -/
def pydle_message_lines (text : String) : List String :=
  pySplit ⟨text.data.filter (fun c => c ≠ '\r')⟩ '\n'

/-- `IRCBot.send_notification` / `IRCClient.send_notification`: one pydle
`message`/`notice` call per joined channel, each carrying the whole
notification text; the result lists, per channel, the protocol messages put
on the wire for that channel, in order. -/
def send_notification (channels : List String) (notification : String) :
    List (String × List String) :=
  channels.map (fun c => (c, pydle_message_lines notification))

/-- The fallback-nickname ladder of `IRCBot.__init__` (`neferus/irc.py`):
the reversed nickname, then rot13 of the nickname, then rot13 of the
reversed nickname. -/
def fallback_nicknames (nickname : String) : List String :=
  [pyReverse nickname, rot13 nickname, rot13 (pyReverse nickname)]

end IRC

namespace FA

/-- Python `'_' * i`. -/
def underscores (i : Nat) : String := ⟨List.replicate i '_'⟩

/-- The fallback-nickname ladder of `IRCClient.__init__`
(`function_app.py`): a first loop over `i = 4, 3, 2, 1, 0` inserting
`nickname + '_' * i` and `reversed + '_' * i` at the front, then a second
loop over `i = 0..3` appending rot13 of both forms. -/
def fallback_nicknames (nickname : String) : List String :=
  let first := [4, 3, 2, 1, 0].foldl (fun acc i =>
    let nick := nickname ++ underscores i
    let nick_inverse := pyReverse nickname ++ underscores i
    nick :: nick_inverse :: acc) []
  (List.range 4).foldl (fun acc i =>
    let nick := nickname ++ underscores i
    let nick_inverse := pyReverse nickname ++ underscores i
    acc ++ [rot13 nick, rot13 nick_inverse]) first

end FA

section HelperLemmas

@[simp] theorem except_bind_ok {ε α β : Type} (a : α) (f : α → Except ε β) :
    (Except.ok a : Except ε α) >>= f = f a := rfl

@[simp] theorem except_bind_error {ε α β : Type} (e : ε) (f : α → Except ε β) :
    (Except.error e : Except ε α) >>= f = .error e := rfl

@[simp] theorem except_pure_eq {ε α : Type} (a : α) :
    (pure a : Except ε α) = .ok a := rfl

theorem except_ok_of_bind {ε α β : Type} {x : Except ε α} {f : α → Except ε β}
    {b : β} (h : x >>= f = .ok b) : ∃ a, x = .ok a ∧ f a = .ok b := by
  cases x with
  | error e => simp at h
  | ok a => exact ⟨a, rfl, h⟩

theorem str_append_empty (s : String) : s ++ "" = s := by
  apply String.ext
  rw [String.data_append]
  simp

theorem str_mk_data (s : String) : String.mk s.data = s := rfl

theorem joinChar_cons_cons (sep : Char) (l m : List Char)
    (ms : List (List Char)) :
    joinChar sep (l :: m :: ms) = l ++ sep :: joinChar sep (m :: ms) := rfl

theorem splitChar_ne_nil (sep : Char) (l : List Char) : splitChar sep l ≠ [] := by
  induction l with
  | nil => simp [splitChar]
  | cons x xs ih =>
    rcases hs : splitChar sep xs with _ | ⟨a, b⟩
    · exact absurd hs ih
    · rw [splitChar, hs]
      by_cases hx : x = sep <;> simp [hx]

theorem splitChar_not_mem {sep : Char} {l : List Char} (h : sep ∉ l) :
    splitChar sep l = [l] := by
  induction l with
  | nil => rfl
  | cons x xs ih =>
    have hx : ¬ x = sep := fun hx => h (by rw [hx]; exact List.mem_cons_self _ _)
    have hxs : sep ∉ xs := fun hm => h (List.mem_cons_of_mem _ hm)
    rw [splitChar, ih hxs]
    simp [hx]

theorem splitChar_append_sep {sep : Char} {l₁ : List Char} (h : sep ∉ l₁)
    (l₂ : List Char) : splitChar sep (l₁ ++ sep :: l₂) = l₁ :: splitChar sep l₂ := by
  induction l₁ with
  | nil =>
    rcases hs : splitChar sep l₂ with _ | ⟨a, b⟩
    · exact absurd hs (splitChar_ne_nil sep l₂)
    · rw [List.nil_append, splitChar, hs]
      simp
  | cons x xs ih =>
    have hx : ¬ x = sep := fun hx => h (by rw [hx]; exact List.mem_cons_self _ _)
    have hxs : sep ∉ xs := fun hm => h (List.mem_cons_of_mem _ hm)
    rcases hs : splitChar sep (xs ++ sep :: l₂) with _ | ⟨a, b⟩
    · exact absurd hs (splitChar_ne_nil sep _)
    · rw [List.cons_append, splitChar, hs]
      have := ih hxs
      rw [hs] at this
      simp only [if_neg hx]
      injection this with h1 h2
      simp [h1, h2]

theorem mem_joinChar {sep : Char} {ls : List (List Char)} {x : Char}
    (h : x ∈ joinChar sep ls) : x = sep ∨ ∃ l ∈ ls, x ∈ l := by
  induction ls with
  | nil => simp [joinChar] at h
  | cons l ls ih =>
    cases ls with
    | nil => exact Or.inr ⟨l, by simp, h⟩
    | cons m ms =>
      rw [joinChar_cons_cons] at h
      rcases List.mem_append.mp h with hl | hr
      · exact Or.inr ⟨l, by simp, hl⟩
      · rcases List.mem_cons.mp hr with he | hj
        · exact Or.inl he
        · rcases ih hj with he | ⟨l2, hl2, hx⟩
          · exact Or.inl he
          · exact Or.inr ⟨l2, List.mem_cons_of_mem _ hl2, hx⟩

theorem splitChar_joinChar {sep : Char} {ls : List (List Char)} (hne : ls ≠ [])
    (h : ∀ l ∈ ls, sep ∉ l) : splitChar sep (joinChar sep ls) = ls := by
  induction ls with
  | nil => exact absurd rfl hne
  | cons l ls ih =>
    cases ls with
    | nil => exact splitChar_not_mem (h l (by simp))
    | cons m ms =>
      rw [joinChar_cons_cons, splitChar_append_sep (h l (by simp))]
      rw [ih (by simp) (fun x hx => h x (List.mem_cons_of_mem _ hx))]

theorem not_mem_splitChar_self (sep : Char) (l : List Char) :
    ∀ p ∈ splitChar sep l, sep ∉ p := by
  induction l with
  | nil =>
    intro p hp
    simp [splitChar] at hp
    simp [hp]
  | cons x xs ih =>
    intro p hp
    rcases hs : splitChar sep xs with _ | ⟨a, b⟩
    · exact absurd hs (splitChar_ne_nil sep xs)
    · have heq : splitChar sep (x :: xs) =
          if x = sep then [] :: a :: b else (x :: a) :: b := by
        rw [splitChar, hs]
      rw [heq] at hp
      by_cases hx : x = sep
      · rw [if_pos hx] at hp
        rcases List.mem_cons.mp hp with he | hm
        · simp [he]
        · exact ih p (hs ▸ hm)
      · rw [if_neg hx] at hp
        rcases List.mem_cons.mp hp with he | hm
        · subst he
          intro hmem
          rcases List.mem_cons.mp hmem with he2 | hm2
          · exact hx he2.symm
          · exact ih a (hs ▸ List.mem_cons_self a b) hm2
        · exact ih p (hs ▸ List.mem_cons_of_mem a hm)

theorem pyFirstLine_eq_takeWhile (s : String) :
    (pyFirstLine s).data = s.data.takeWhile (fun c => c ≠ '\n') := by
  rw [pyFirstLine]
  rcases s with ⟨l⟩
  show (match pyFindNL l with
    | some i => String.mk (l.take i)
    | none => String.mk l).data = l.takeWhile (fun c => c ≠ '\n')
  induction l with
  | nil => rfl
  | cons c t ih =>
    rw [pyFindNL]
    by_cases hc : c = '\n'
    · rw [if_pos hc]
      simp [List.takeWhile_cons, hc]
    · rw [if_neg hc]
      rcases hf : pyFindNL t with _ | i <;> rw [hf] at ih
      · simpa [List.takeWhile_cons, hc] using ih
      · simpa [List.takeWhile_cons, hc] using ih

end HelperLemmas

/-- Test payload: one commit object as GitHub delivers it, from a
(author-name, id, message) triple. -/
def mkCommit : String × String × String → JValue
  | (name, id, message) =>
    .obj [("message", .str message),
          ("author", .obj [("name", .str name)]),
          ("id", .str id)]

/-- Test payload: a push event with the fields both push handlers consult. -/
def mkPushEvent (refStr actor repo compare : String) (forced deleted : Bool)
    (cs : List (String × String × String)) : JValue :=
  .obj [("ref", .str refStr),
        ("sender", .obj [("login", .str actor)]),
        ("commits", .arr (cs.map mkCommit)),
        ("forced", .bool forced),
        ("repository", .obj [("full_name", .str repo), ("html_url", .str "")]),
        ("deleted", .bool deleted),
        ("compare", .str compare)]

/-- Test payload: a non-deleted push to `refs/heads/<branch>`. -/
def mkPushHeads (actor repo compare branch : String) (forced : Bool)
    (cs : List (String × String × String)) : JValue :=
  mkPushEvent ("refs/heads/" ++ branch) actor repo compare forced false cs

/-- Test payload: a well-formed POST request carrying a parsed JSON body. -/
def mkJsonReq (et : String) (p : JValue) : Request :=
  ⟨"POST", "application/json", some et, none, [], .ok p⟩

/-- The summary line the push renderers produce for a non-deleted heads push
with `n` commits (spec-side rendering used in theorem statements). -/
def pushSummary (actor repo branch compare : String) (forced : Bool) (n : Nat) :
    String :=
  let author := "\x02" ++ actor ++ "\x02"
  let push_type := if forced then "\x034\x02force-pushed\x0f" else "pushed"
  let ref_path := repo ++ ("/" ++ branch)
  if n ≠ 0 then
    author ++ " has " ++ push_type ++ " " ++ toString n ++ " " ++
      (if n = 1 then "commit" else "commits") ++ " to " ++ ref_path ++
      ": " ++ compare
  else
    author ++ " has " ++ push_type ++ " to " ++ ref_path

/-- The detail line the push renderers produce for one commit triple
(spec-side rendering used in theorem statements). -/
def commitDetail : String × String × String → String
  | (name, id, message) => name ++ " " ++ strTake 7 id ++ " " ++ pyFirstLine message

section PushEval

theorem commitLine_mkCommit (t : String × String × String) :
    commitLine (mkCommit t) = .ok (commitDetail t) := by
  obtain ⟨n, i, m⟩ := t
  rfl

theorem detailLines_mkCommits (cs : List (String × String × String)) :
    ∀ k, k ≤ cs.length →
      detailLines (.arr (cs.map mkCommit)) k = .ok ((cs.take k).map commitDetail) := by
  intro k
  induction k with
  | zero => intro _; simp [detailLines]
  | succ k ih =>
    intro hk
    have hk2 : k ≤ cs.length := Nat.le_of_succ_le hk
    have hklt : k < cs.length := hk
    rw [detailLines, ih hk2]
    have hidx : pyIndex (.arr (cs.map mkCommit)) k = .ok (mkCommit (cs.get ⟨k, hklt⟩)) := by
      rw [pyIndex]
      have : (cs.map mkCommit).get? k = some (mkCommit (cs.get ⟨k, hklt⟩)) := by
        rw [List.get?_map, List.get?_eq_get hklt]
        rfl
      rw [this]
    rw [except_bind_ok, hidx, except_bind_ok, commitLine_mkCommit, except_bind_ok]
    have : cs.take (k + 1) = cs.take k ++ [cs.get ⟨k, hklt⟩] := by
      rw [List.take_succ, List.getElem?_eq_getElem hklt]
      rfl
    rw [this, List.map_append]
    rfl

theorem pySplit_heads (branch : String) (hb : '/' ∉ branch.data) :
    pySplit ("refs/heads/" ++ branch) '/' = ["refs", "heads", branch] := by
  rw [pySplit]
  have hd : ("refs/heads/" ++ branch).data =
      ['r', 'e', 'f', 's'] ++ '/' :: (['h', 'e', 'a', 'd', 's'] ++ '/' :: branch.data) := by
    rw [String.data_append]
    rfl
  rw [hd]
  rw [splitChar_append_sep (by decide), splitChar_append_sep (by decide),
    splitChar_not_mem hb]
  rfl

theorem parseRef_mkPushHeads (actor repo compare branch : String) (forced : Bool)
    (cs : List (String × String × String)) (hb : '/' ∉ branch.data) :
    parseRef (mkPushHeads actor repo compare branch forced cs) = .ok ("heads", branch) := by
  rw [parseRef, tryParseRef]
  have hget : (mkPushHeads actor repo compare branch forced cs).get "ref" =
      .ok (.str ("refs/heads/" ++ branch)) := rfl
  rw [hget, except_bind_ok]
  have hstr : (JValue.str ("refs/heads/" ++ branch)).asStr =
      .ok ("refs/heads/" ++ branch) := rfl
  rw [hstr, except_bind_ok, pySplit_heads branch hb]

end PushEval

@[simp] theorem mkPushEvent_get_sender (rs a rp c : String) (f d : Bool) (cs) :
    (mkPushEvent rs a rp c f d cs).get "sender" = .ok (.obj [("login", .str a)]) := rfl

@[simp] theorem mkPushEvent_get_commits (rs a rp c : String) (f d : Bool) (cs) :
    (mkPushEvent rs a rp c f d cs).get "commits" = .ok (.arr (cs.map mkCommit)) := rfl

@[simp] theorem mkPushEvent_get_forced (rs a rp c : String) (f d : Bool) (cs) :
    (mkPushEvent rs a rp c f d cs).get "forced" = .ok (.bool f) := rfl

@[simp] theorem mkPushEvent_get_repository (rs a rp c : String) (f d : Bool) (cs) :
    (mkPushEvent rs a rp c f d cs).get "repository" =
      .ok (.obj [("full_name", .str rp), ("html_url", .str "")]) := rfl

@[simp] theorem mkPushEvent_get_deleted (rs a rp c : String) (f d : Bool) (cs) :
    (mkPushEvent rs a rp c f d cs).get "deleted" = .ok (.bool d) := rfl

@[simp] theorem mkPushEvent_get_compare (rs a rp c : String) (f d : Bool) (cs) :
    (mkPushEvent rs a rp c f d cs).get "compare" = .ok (.str c) := rfl

@[simp] theorem mkPushEvent_get_ref (rs a rp c : String) (f d : Bool) (cs) :
    (mkPushEvent rs a rp c f d cs).get "ref" = .ok (.str rs) := rfl

@[simp] theorem jget_login (a : String) :
    (JValue.obj [("login", .str a)]).get "login" = .ok (.str a) := rfl

@[simp] theorem jget_full_name (rp h : String) :
    (JValue.obj [("full_name", .str rp), ("html_url", .str h)]).get "full_name" =
      .ok (.str rp) := rfl

@[simp] theorem jget_html_url (rp h : String) :
    (JValue.obj [("full_name", .str rp), ("html_url", .str h)]).get "html_url" =
      .ok (.str h) := rfl

theorem handle_push_heads_eval (maxC : Nat) (actor repo compare branch : String)
    (forced : Bool) (cs : List (String × String × String)) (hb : '/' ∉ branch.data) :
    FA.handle_push maxC (mkPushHeads actor repo compare branch forced cs) =
      .ok ([pyJoinNL (pushSummary actor repo branch compare forced cs.length ::
            (if cs.length ≤ maxC then cs.map commitDetail else []))], 202) := by
  unfold FA.handle_push
  rw [parseRef_mkPushHeads actor repo compare branch forced cs hb]
  simp only [except_bind_ok]
  have ht : ¬(("heads" : String) = "tags" ∧ branch = "last-successful") :=
    fun h => absurd h.1 (by decide)
  rw [if_neg ht]
  simp only [mkPushHeads, mkPushEvent_get_sender, mkPushEvent_get_commits,
    mkPushEvent_get_forced, mkPushEvent_get_repository, mkPushEvent_get_deleted,
    mkPushEvent_get_compare, jget_login, jget_full_name, except_bind_ok,
    except_pure_eq, pyLen, pyStr, truthy, List.length_map, true_and, true_or,
    if_true, Bool.false_eq_true, not_false_eq_true]
  by_cases h0 : cs.length = 0
  · have hcs : cs = [] := List.length_eq_zero.mp h0
    subst hcs
    simp [detailLines, pushSummary]
  · rw [if_pos h0]
    by_cases hm : cs.length ≤ maxC
    · rw [if_pos hm, Nat.min_eq_left hm,
        detailLines_mkCommits cs cs.length le_rfl, List.take_length,
        except_bind_ok]
      rw [if_pos hm]
      simp only [pushSummary, if_pos h0]
    · rw [if_neg hm, if_neg hm]
      simp only [pushSummary, if_pos h0]

theorem wh_handle_push_heads_eval (actor repo compare branch : String)
    (forced : Bool) (cs : List (String × String × String)) (hb : '/' ∉ branch.data) :
    WH.handle_push (mkPushHeads actor repo compare branch forced cs) =
      .ok [pyJoinNL (pushSummary actor repo branch compare forced cs.length ::
            (if cs.length ≤ WH.max_commits then cs.map commitDetail else []))] := by
  unfold WH.handle_push
  rw [parseRef_mkPushHeads actor repo compare branch forced cs hb]
  simp only [except_bind_ok]
  have ht : ¬(("heads" : String) = "tags" ∧ branch = "last-successful") :=
    fun h => absurd h.1 (by decide)
  rw [if_neg ht]
  simp only [mkPushHeads, mkPushEvent_get_sender, mkPushEvent_get_commits,
    mkPushEvent_get_forced, mkPushEvent_get_repository, mkPushEvent_get_deleted,
    mkPushEvent_get_compare, jget_login, jget_full_name, except_bind_ok,
    except_pure_eq, pyLen, pyStr, truthy, List.length_map, true_and, true_or,
    if_true, Bool.false_eq_true, not_false_eq_true]
  by_cases h0 : cs.length = 0
  · have hcs : cs = [] := List.length_eq_zero.mp h0
    subst hcs
    simp [detailLines, pushSummary]
  · rw [if_pos h0]
    by_cases hm : cs.length ≤ WH.max_commits
    · rw [if_pos hm, Nat.min_eq_left hm,
        detailLines_mkCommits cs cs.length le_rfl, List.take_length,
        except_bind_ok]
      rw [if_pos hm]
      simp only [pushSummary, if_pos h0]
    · rw [if_neg hm, if_neg hm]
      simp only [pushSummary, if_pos h0]

theorem randomChoice_spec (r : Nat) : randomChoice r ∈ quotes ∧ randomChoice r ≠ "" := by
  have h : r % quotes.length < 7 := Nat.mod_lt _ (by decide)
  rw [randomChoice]
  generalize hm : r % quotes.length = m at h
  interval_cases m <;> exact ⟨by decide, by decide⟩

theorem fa_handle_issue_status (ev : JValue) (l : List String) (s : Nat)
    (h : FA.handle_issue ev = .ok (l, s)) : s = 202 ∨ s = 501 := by
  unfold FA.handle_issue at h
  iterate 30
    all_goals (first
      | (obtain ⟨_, -, h⟩ := except_ok_of_bind h)
      | (split at h)
      | (dsimp only at h)
      | skip)
  all_goals injection h with h2
  all_goals first
    | exact Or.inl (congrArg Prod.snd h2).symm
    | exact Or.inr (congrArg Prod.snd h2).symm

theorem fa_handle_ping_status (who : String) (ev : JValue) (l : List String) (s : Nat)
    (h : FA.handle_ping who ev = .ok (l, s)) : s = 202 ∨ s = 501 := by
  unfold FA.handle_ping at h
  iterate 30
    all_goals (first
      | (obtain ⟨_, -, h⟩ := except_ok_of_bind h)
      | (split at h)
      | (dsimp only at h)
      | skip)
  all_goals injection h with h2
  all_goals first
    | exact Or.inl (congrArg Prod.snd h2).symm
    | exact Or.inr (congrArg Prod.snd h2).symm

theorem fa_handle_pr_status (ev : JValue) (l : List String) (s : Nat)
    (h : FA.handle_pull_request ev = .ok (l, s)) : s = 202 ∨ s = 501 := by
  unfold FA.handle_pull_request at h
  iterate 30
    all_goals (first
      | (obtain ⟨_, -, h⟩ := except_ok_of_bind h)
      | (split at h)
      | (dsimp only at h)
      | skip)
  all_goals injection h with h2
  all_goals first
    | exact Or.inl (congrArg Prod.snd h2).symm
    | exact Or.inr (congrArg Prod.snd h2).symm

theorem fa_handle_push_status (maxC : Nat) (ev : JValue) (l : List String) (s : Nat)
    (h : FA.handle_push maxC ev = .ok (l, s)) : s = 202 ∨ s = 501 := by
  unfold FA.handle_push at h
  iterate 30
    all_goals (first
      | (obtain ⟨_, -, h⟩ := except_ok_of_bind h)
      | (split at h)
      | (dsimp only at h)
      | skip)
  all_goals injection h with h2
  all_goals first
    | exact Or.inl (congrArg Prod.snd h2).symm
    | exact Or.inr (congrArg Prod.snd h2).symm

theorem fa_main_inner_success (secret : String) (maxC : Nat) (who : String)
    (req : Request) (l : List String) (s : Nat)
    (h : FA.main_inner secret maxC who req = .ok (l, s))
    (hs : 200 ≤ s ∧ s < 300) : s = 202 := by
  unfold FA.main_inner at h
  dsimp only at h
  split at h
  · rename_i hv
    injection h with h2
    injection h2 with hl hsv
    rw [← hsv] at hs
    exact absurd hs hv
  · split at h
    · injection h with h2
      injection h2 with hl hsv
      omega
    · split at h
      · injection h with h2
        injection h2 with hl hsv
        omega
      · rename_i handler hlk
        split at h
        · exact absurd h (by simp)
        · split at h
          · exact absurd h (by simp)
          · rename_i sent st hh
            injection h with h2
            injection h2 with hl hsv
            unfold FA.handlers at hlk
            simp only [List.lookup] at hlk
            split at hlk
            · injection hlk with h3
              rcases fa_handle_issue_status _ _ _ (h3 ▸ hh) with h4 | h4 <;> omega
            · split at hlk
              · injection hlk with h3
                rcases fa_handle_ping_status _ _ _ _ (h3 ▸ hh) with h4 | h4 <;> omega
              · split at hlk
                · injection hlk with h3
                  rcases fa_handle_pr_status _ _ _ (h3 ▸ hh) with h4 | h4 <;> omega
                · split at hlk
                  · injection hlk with h3
                    rcases fa_handle_push_status _ _ _ _ (h3 ▸ hh) with h4 | h4 <;> omega
                  · exact absurd hlk (by simp)

theorem wh_on_request_text (secret : List Nat) (req : Request) (r : Nat) :
    (WH.on_request secret req r).text ≠ "" ∧
    ((WH.on_request secret req r).status = 202 →
      (WH.on_request secret req r).text = "Accepted") := by
  unfold WH.on_request
  repeat' split
  all_goals refine ⟨?_, ?_⟩
  all_goals first
    | exact (randomChoice_spec r).2
    | decide
    | (intro h; exact absurd h (by decide))
    | (intro _; rfl)
    | (intro h; simp at h)

theorem irc_ladder_eq (n : String) :
    IRC.fallback_nicknames n = [pyReverse n, rot13 n, rot13 (pyReverse n)] := rfl

theorem fa_ladder_eq (n : String) :
    FA.fallback_nicknames n =
      [n, pyReverse n, n ++ "_", pyReverse n ++ "_", n ++ "__", pyReverse n ++ "__",
       n ++ "___", pyReverse n ++ "___", n ++ "____", pyReverse n ++ "____",
       rot13 n, rot13 (pyReverse n), rot13 (n ++ "_"), rot13 (pyReverse n ++ "_"),
       rot13 (n ++ "__"), rot13 (pyReverse n ++ "__"), rot13 (n ++ "___"),
       rot13 (pyReverse n ++ "___")] := by
  have h0 : FA.fallback_nicknames n =
      [n ++ "", pyReverse n ++ "", n ++ "_", pyReverse n ++ "_", n ++ "__",
       pyReverse n ++ "__", n ++ "___", pyReverse n ++ "___", n ++ "____",
       pyReverse n ++ "____",
       rot13 (n ++ ""), rot13 (pyReverse n ++ ""), rot13 (n ++ "_"),
       rot13 (pyReverse n ++ "_"), rot13 (n ++ "__"), rot13 (pyReverse n ++ "__"),
       rot13 (n ++ "___"), rot13 (pyReverse n ++ "___")] := rfl
  rw [h0]
  simp only [str_append_empty]

/-- C1 (amended): the Azure function authenticator `_validate_request`
satisfies the claimed contract exactly (refinement of `authSpec`, the
contract as the specification words it): empty secret and absent header
allow unverified; set secret and absent header reject with 403; a present
header is compared against `"sha1=" ++ hex(HMAC-SHA1(secret, body))`, equal
allowing verified and unequal rejecting with 403; a present header with an
empty secret rejects with 500.  The aiohttp authenticator in
`GitHub._on_request` satisfies the same contract except in the last case:
with an empty secret and a present signature header it proceeds
allowed-unverified (only logging an error) instead of rejecting with 500. -/
theorem C1_authenticator_contract (secret : String) (bsecret : List Nat)
    (sig : Option String) (body : List Nat) :
    FA.validate_auth secret sig body =
      authSpec (secret = "") ("sha1=" ++ hexOfBytes (hmacSha1 (utf8Bytes secret) body)) sig
    ∧ WH.verify_hmac bsecret sig body =
      (if bsecret = [] ∧ sig.isSome then .allowedUnverified
       else authSpec (bsecret = []) ("sha1=" ++ hexOfBytes (hmacSha1 bsecret body)) sig) := by
  constructor
  · unfold FA.validate_auth authSpec
    cases sig with
    | none => by_cases hs : secret = "" <;> simp [hs]
    | some g =>
      by_cases hs : secret = "" <;> simp [hs]
      by_cases hg : "sha1=" ++ hexOfBytes (hmacSha1 (utf8Bytes secret) body) = g
      · have hg2 : g = "sha1=" ++ hexOfBytes (hmacSha1 (utf8Bytes secret) body) := hg.symm
        rw [if_pos hg, if_pos hg2]
      · have hg2 : ¬ (g = "sha1=" ++ hexOfBytes (hmacSha1 (utf8Bytes secret) body)) :=
          fun h => hg h.symm
        rw [if_neg hg, if_neg hg2]
  · unfold WH.verify_hmac authSpec
    cases sig with
    | none => by_cases hs : bsecret = [] <;> simp [hs]
    | some g =>
      by_cases hs : bsecret = [] <;> simp [hs]
      by_cases hg : "sha1=" ++ hexOfBytes (hmacSha1 bsecret body) = g
      · have hg2 : g = "sha1=" ++ hexOfBytes (hmacSha1 bsecret body) := hg.symm
        rw [if_pos hg, if_pos hg2]
      · have hg2 : ¬ (g = "sha1=" ++ hexOfBytes (hmacSha1 bsecret body)) :=
          fun h => hg h.symm
        rw [if_neg hg, if_neg hg2]

/-- C1 counterexample: the claim requires a present signature header with an
empty secret to be Rejected(InternalError); the aiohttp service instead lets
the request proceed unverified. -/
theorem C1_counterexample :
    WH.verify_hmac [] (some "sha1=0000") [104, 105] = .allowedUnverified ∧
    AuthOutcome.allowedUnverified ≠ .rejected 500 := ⟨rfl, by decide⟩

/-- C9 (amended): both fallback-nickname ladders are pure functions of the
primary nickname with the given closed forms, so repeated computation yields
identical ladders; the ladders are duplicate-free for the configured default
nickname "Neferus", but not for every nickname (see the counterexample). -/
theorem C9_ladder_determinism :
    (∀ n, IRC.fallback_nicknames n = [pyReverse n, rot13 n, rot13 (pyReverse n)])
    ∧ (∀ n, FA.fallback_nicknames n =
        [n, pyReverse n, n ++ "_", pyReverse n ++ "_", n ++ "__", pyReverse n ++ "__",
         n ++ "___", pyReverse n ++ "___", n ++ "____", pyReverse n ++ "____",
         rot13 n, rot13 (pyReverse n), rot13 (n ++ "_"), rot13 (pyReverse n ++ "_"),
         rot13 (n ++ "__"), rot13 (pyReverse n ++ "__"), rot13 (n ++ "___"),
         rot13 (pyReverse n ++ "___")])
    ∧ (IRC.fallback_nicknames "Neferus").Nodup
    ∧ (FA.fallback_nicknames "Neferus").Nodup :=
  ⟨irc_ladder_eq, fa_ladder_eq, by decide, by decide⟩

/-- C9 counterexample: the claim asserts a duplicate-free ladder for every
primary nickname, but the nickname "a" yields the ladder ["a", "n", "n"]
in the aiohttp service, which contains a duplicate. -/
theorem C9_counterexample : ¬ (IRC.fallback_nicknames "a").Nodup := by decide

/-- C10 (amended): the Azure client ladder has 18 entries whose first entry
is the primary nickname itself; the remaining entries are the primary and
reversed nickname with zero to four trailing underscores (the reversed
nickname with zero underscores is present, which the claim's enumeration
omits) plus rot13 of both forms with zero to three trailing underscores. -/
theorem C10_ladder_shape (n : String) :
    (FA.fallback_nicknames n).length = 18
    ∧ (FA.fallback_nicknames n).head? = some n
    ∧ FA.fallback_nicknames n =
        [n, pyReverse n, n ++ "_", pyReverse n ++ "_", n ++ "__", pyReverse n ++ "__",
         n ++ "___", pyReverse n ++ "___", n ++ "____", pyReverse n ++ "____",
         rot13 n, rot13 (pyReverse n), rot13 (n ++ "_"), rot13 (pyReverse n ++ "_"),
         rot13 (n ++ "__"), rot13 (pyReverse n ++ "__"), rot13 (n ++ "___"),
         rot13 (pyReverse n ++ "___")] := by
  refine ⟨?_, ?_, fa_ladder_eq n⟩
  · rw [fa_ladder_eq n]
    rfl
  · rw [fa_ladder_eq n]
    rfl

/-- C10 counterexample: for the nickname "ab" the second ladder entry is
"ba" (the reversed nickname with zero underscores), which is not among the
remaining entries the claim enumerates (primary and reversed with one to
four underscores plus rot13 forms "no"/"on" with zero to three). -/
theorem C10_counterexample :
    (FA.fallback_nicknames "ab").get? 1 = some "ba"
    ∧ ("ba" ∉ ["ab_", "ab__", "ab___", "ab____", "ba_", "ba__", "ba___", "ba____",
               "no", "on", "no_", "on_", "no__", "on__", "no___", "on___"]) :=
  ⟨rfl, by decide⟩

def pingReqW : Request :=
  mkJsonReq "ping" (.obj [("repository", .obj [("full_name", .str "acme/widgets")])])

/-- C7 (amended): in the Azure function every successful response has
status 202 with an empty body and every failing response carries one of the
fixed quotes as a non-empty placeholder body (a constant list independent of
the request, so no stack trace or internal detail can appear); a timeout maps
to 504 with the same placeholder.  In the aiohttp service every response body
is non-empty: failures carry a quote or the framework default reason text,
and a successful 202 carries the fixed body "Accepted" rather than the empty
body the claim requires. -/
theorem C7_response_body_discipline (secret : String) (maxC : Nat) (who : String)
    (req : Request) (r : Nat) (bsecret : List Nat) (req2 : Request) :
    ((200 ≤ (FA.main secret maxC who req r).status ∧
        (FA.main secret maxC who req r).status < 300) →
      (FA.main secret maxC who req r).status = 202 ∧
        (FA.main secret maxC who req r).body = none)
    ∧ (¬(200 ≤ (FA.main secret maxC who req r).status ∧
          (FA.main secret maxC who req r).status < 300) →
        (FA.main secret maxC who req r).body = some (randomChoice r) ∧
          randomChoice r ∈ quotes ∧ randomChoice r ≠ "")
    ∧ FA.fn_main (.error .timeout) r = ⟨504, some (randomChoice r)⟩
    ∧ (WH.on_request bsecret req2 r).text ≠ ""
    ∧ ((WH.on_request bsecret req2 r).status = 202 →
        (WH.on_request bsecret req2 r).text = "Accepted") := by
  have hw := wh_on_request_text bsecret req2 r
  rcases hmi : FA.main_inner secret maxC who req with e | ls
  · cases e with
    | timeout =>
      have hm : FA.main secret maxC who req r = ⟨504, some (randomChoice r)⟩ := by
        rw [FA.main, hmi]
        rfl
      rw [hm]
      exact ⟨fun hsucc => absurd hsucc.2 (by simp),
        fun _ => ⟨rfl, (randomChoice_spec r).1, (randomChoice_spec r).2⟩,
        rfl, hw.1, hw.2⟩
    | exn m =>
      have hm : FA.main secret maxC who req r = ⟨500, some (randomChoice r)⟩ := by
        rw [FA.main, hmi]
        rfl
      rw [hm]
      exact ⟨fun hsucc => absurd hsucc.2 (by simp),
        fun _ => ⟨rfl, (randomChoice_spec r).1, (randomChoice_spec r).2⟩,
        rfl, hw.1, hw.2⟩
  · obtain ⟨l, s⟩ := ls
    have hm : FA.main secret maxC who req r =
        ⟨s, if 200 ≤ s ∧ s < 300 then none else some (randomChoice r)⟩ := by
      rw [FA.main, hmi]
      rfl
    rw [hm]
    by_cases hsc : 200 ≤ s ∧ s < 300
    · exact ⟨fun _ => ⟨fa_main_inner_success secret maxC who req l s hmi hsc,
          by rw [if_pos hsc]⟩,
        fun hf => absurd hsc hf, rfl, hw.1, hw.2⟩
    · exact ⟨fun hsucc => absurd hsucc hsc,
        fun _ => ⟨by rw [if_neg hsc], (randomChoice_spec r).1, (randomChoice_spec r).2⟩,
        rfl, hw.1, hw.2⟩

/-- C7 counterexample: a successful ping through the aiohttp service
answers 202 with the non-empty body "Accepted", contradicting the claim
that every successful outcome has an empty response body. -/
theorem C7_counterexample :
    (WH.on_request [] pingReqW 0).status = 202 ∧
    (WH.on_request [] pingReqW 0).text ≠ "" := ⟨rfl, by decide⟩

/-- C7 witness: a concrete successful Azure request yields 202 with an
empty body. -/
theorem C7_witness :
    (FA.main "" 3 "w" pingReqW 0).status = 202 ∧
    (FA.main "" 3 "w" pingReqW 0).body = none :=
  (C7_response_body_discipline "" 3 "w" pingReqW 0 [] pingReqW).1 (by decide)

theorem pyJoinNL_single (s : String) : pyJoinNL [s] = s := rfl

theorem pushSummary_zero (actor repo branch compare : String) :
    pushSummary actor repo branch compare false 0 =
      "\x02" ++ actor ++ "\x02 has pushed to " ++ repo ++ "/" ++ branch := by
  apply String.ext
  rw [pushSummary]
  rw [if_neg (by decide : ¬((0:Nat) ≠ 0)), if_neg (by decide : ¬(false = true))]
  simp only [String.data_append, List.append_assoc]
  rfl

theorem wh_on_request_dispatch (et : String) (he : et ≠ "")
    (handler : JValue → Except String (List String))
    (hlk : WH.events.lookup et = some handler) (p : JValue) (r : Nat) :
    WH.on_request [] (mkJsonReq et p) r =
      match handler p with
      | .error _ => ⟨500, "500: Internal Server Error", []⟩
      | .ok sent => ⟨202, "Accepted", sent⟩ := by
  unfold WH.on_request mkJsonReq
  dsimp only
  rw [if_neg (by decide : ¬("POST" : String) ≠ "POST")]
  rw [if_neg (by decide : ¬("application/json" : String) ≠ "application/json")]
  rw [if_neg he]
  have hv : WH.verify_hmac [] none [] = .allowedUnverified := rfl
  rw [hv, hlk]

theorem fa_main_dispatch (et : String) (maxC : Nat) (who : String)
    (handler : JValue → Except String (List String × Nat))
    (hlk : (FA.handlers who maxC).lookup et = some handler) (p : JValue) (r : Nat) :
    FA.main "" maxC who (mkJsonReq et p) r =
      match handler p with
      | .error _ => ⟨500, some (randomChoice r)⟩
      | .ok (_, st) => ⟨st, if 200 ≤ st ∧ st < 300 then none else some (randomChoice r)⟩ := by
  unfold FA.main FA.main_inner mkJsonReq
  dsimp only
  have hval : FA.validate_request "" "POST" (some et).isSome none [] = 200 := rfl
  rw [hval]
  rw [if_neg (by decide : ¬ ¬ (200 ≤ 200 ∧ 200 < 300))]
  rw [hlk]
  dsimp only
  rcases hh : handler p with e | ⟨sent, st⟩ <;> rfl

theorem parseRef_mkPushEvent_bad (refStr actor repo compare : String)
    (forced deleted : Bool) (cs : List (String × String × String))
    (h3 : (pySplit refStr '/').length ≠ 3) :
    parseRef (mkPushEvent refStr actor repo compare forced deleted cs) =
      .ok ("<unknown>", "<unknown>") := by
  rw [parseRef, tryParseRef]
  rw [mkPushEvent_get_ref, except_bind_ok]
  have ha : (JValue.str refStr).asStr = .ok refStr := rfl
  rw [ha, except_bind_ok]
  rcases hs : pySplit refStr '/' with _ | ⟨a, _ | ⟨b, _ | ⟨c, _ | ⟨d, t⟩⟩⟩⟩
  · rfl
  · rfl
  · rfl
  · exact absurd (by rw [hs]; rfl) h3
  · rfl

theorem fa_handle_push_bad_ref (maxC : Nat) (refStr actor repo compare : String)
    (forced : Bool) (cs : List (String × String × String))
    (h3 : (pySplit refStr '/').length ≠ 3) :
    FA.handle_push maxC (mkPushEvent refStr actor repo compare forced false cs) =
      .ok ([], 501) := by
  unfold FA.handle_push
  rw [parseRef_mkPushEvent_bad refStr actor repo compare forced false cs h3]
  simp only [except_bind_ok]
  rw [if_neg (fun h => absurd h.1 (by decide : ¬("<unknown>" : String) = "tags"))]
  simp only [mkPushEvent_get_sender, mkPushEvent_get_commits, mkPushEvent_get_forced,
    mkPushEvent_get_repository, mkPushEvent_get_deleted, mkPushEvent_get_ref,
    jget_login, jget_full_name, except_bind_ok, except_pure_eq, pyLen, pyStr,
    truthy, List.length_map, Bool.false_eq_true, not_false_eq_true]
  rw [if_neg (fun h => absurd h.1 (by decide : ¬("<unknown>" : String) = "heads"))]
  simp only [if_false]
  rw [if_neg (by decide : ¬("<unknown>" : String) = "tags")]

theorem wh_handle_push_bad_ref (refStr actor repo compare : String)
    (forced : Bool) (cs : List (String × String × String))
    (h3 : (pySplit refStr '/').length ≠ 3) :
    WH.handle_push (mkPushEvent refStr actor repo compare forced false cs) =
      .error "HTTPNotImplemented" := by
  unfold WH.handle_push
  rw [parseRef_mkPushEvent_bad refStr actor repo compare forced false cs h3]
  simp only [except_bind_ok]
  rw [if_neg (fun h => absurd h.1 (by decide : ¬("<unknown>" : String) = "tags"))]
  simp only [mkPushEvent_get_sender, mkPushEvent_get_commits, mkPushEvent_get_forced,
    mkPushEvent_get_repository, mkPushEvent_get_deleted, mkPushEvent_get_ref,
    jget_login, jget_full_name, except_bind_ok, except_pure_eq, pyLen, pyStr,
    truthy, List.length_map, Bool.false_eq_true, not_false_eq_true]
  rw [if_neg (fun h => absurd h.1 (by decide : ¬("<unknown>" : String) = "heads"))]
  simp only [if_false]
  rw [if_neg (by decide : ¬("<unknown>" : String) = "tags")]

/-- C2: for every non-deleted heads push with N commits and configured
max-commits-per-event M, both push renderers emit one summary line followed
by exactly N per-commit detail lines when N ≤ M and zero detail lines when
N > M (the summary is always emitted), and each detail line's commit
message is the message truncated exactly at its first newline (the whole
message when it has none). -/
theorem C2_push_detail_boundary (maxC : Nat) (actor repo compare branch : String)
    (forced : Bool) (cs : List (String × String × String))
    (hb : '/' ∉ branch.data) :
    FA.handle_push maxC (mkPushHeads actor repo compare branch forced cs) =
      .ok ([pyJoinNL (pushSummary actor repo branch compare forced cs.length ::
            (if cs.length ≤ maxC then cs.map commitDetail else []))], 202)
    ∧ WH.handle_push (mkPushHeads actor repo compare branch forced cs) =
      .ok [pyJoinNL (pushSummary actor repo branch compare forced cs.length ::
            (if cs.length ≤ WH.max_commits then cs.map commitDetail else []))]
    ∧ (if cs.length ≤ maxC then cs.map commitDetail else []).length =
        (if cs.length ≤ maxC then cs.length else 0)
    ∧ (∀ t : String × String × String,
        commitDetail t = t.1 ++ " " ++ strTake 7 t.2.1 ++ " " ++ pyFirstLine t.2.2)
    ∧ (∀ s : String, (pyFirstLine s).data = s.data.takeWhile (fun c => c ≠ '\n')) := by
  refine ⟨handle_push_heads_eval maxC actor repo compare branch forced cs hb,
    wh_handle_push_heads_eval actor repo compare branch forced cs hb, ?_, ?_,
    pyFirstLine_eq_takeWhile⟩
  · by_cases hm : cs.length ≤ maxC <;> simp [hm]
  · intro t
    obtain ⟨a, b, c⟩ := t
    rfl

/-- Commit list used by the C2 witness. -/
def pushCsW : List (String × String × String) :=
  [("Bob", "0123456789abcdef", "first\nrest"), ("Carol", "fedcba9876", "second")]

/-- C2 witness: the boundary theorem applied to a concrete two-commit push
with max-commits-per-event 1 (so N > M: summary only). -/
theorem C2_push_detail_boundary_witness :
    ('/' ∉ "main".data)
    ∧ FA.handle_push 1 (mkPushHeads "alice" "acme/widgets" "u" "main" false pushCsW) =
        .ok ([pyJoinNL (pushSummary "alice" "acme/widgets" "main" "u" false pushCsW.length ::
              (if pushCsW.length ≤ 1 then pushCsW.map commitDetail else []))], 202) :=
  ⟨by decide,
   (C2_push_detail_boundary 1 "alice" "acme/widgets" "u" "main" false pushCsW (by decide)).1⟩

/-- C6 counterexample: the claimed rendered line omits the branch suffix;
the renderer actually appends "/<branch>" to the repository path, so the
line differs from the claim's "<actor> has pushed to <repo>". -/
theorem C6_counterexample :
    FA.handle_push 3 (mkPushHeads "alice" "acme/widgets" "u" "main" false []) =
      .ok (["\x02alice\x02 has pushed to acme/widgets/main"], 202)
    ∧ ("\x02alice\x02 has pushed to acme/widgets/main" : String) ≠
        "\x02alice\x02 has pushed to acme/widgets" := ⟨rfl, by decide⟩

/-- C6 (amended): a push to refs/heads/<branch> with forced = false,
deleted = false and no commits renders the single summary line
"<actor> has pushed to <repo>/<branch>" with no commit-count clause and no
compare-URL clause, and both services answer 202 (the aiohttp service with
body "Accepted", the Azure function with an empty body). -/
theorem C6_zero_commit_push (maxC : Nat) (actor repo compare branch : String)
    (r : Nat) (hb : '/' ∉ branch.data) :
    FA.handle_push maxC (mkPushHeads actor repo compare branch false []) =
      .ok (["\x02" ++ actor ++ "\x02 has pushed to " ++ repo ++ "/" ++ branch], 202)
    ∧ WH.handle_push (mkPushHeads actor repo compare branch false []) =
      .ok ["\x02" ++ actor ++ "\x02 has pushed to " ++ repo ++ "/" ++ branch]
    ∧ WH.on_request [] (mkJsonReq "push" (mkPushHeads actor repo compare branch false [])) r =
        ⟨202, "Accepted", ["\x02" ++ actor ++ "\x02 has pushed to " ++ repo ++ "/" ++ branch]⟩
    ∧ FA.main "" maxC "w" (mkJsonReq "push" (mkPushHeads actor repo compare branch false [])) r =
        ⟨202, none⟩ := by
  have hfa := handle_push_heads_eval maxC actor repo compare branch false [] hb
  have hwh := wh_handle_push_heads_eval actor repo compare branch false [] hb
  rw [List.length_nil, List.map_nil, if_pos (Nat.zero_le maxC),
    pushSummary_zero, pyJoinNL_single] at hfa
  rw [List.length_nil, List.map_nil, if_pos (Nat.zero_le WH.max_commits),
    pushSummary_zero, pyJoinNL_single] at hwh
  refine ⟨hfa, hwh, ?_, ?_⟩
  · rw [wh_on_request_dispatch "push" (by decide) WH.handle_push rfl _ r, hwh]
  · rw [fa_main_dispatch "push" maxC "w" (FA.handle_push maxC) rfl _ r, hfa]
    rfl

/-- C6 witness: the amended theorem at a concrete zero-commit push. -/
theorem C6_zero_commit_push_witness :
    ('/' ∉ "main".data)
    ∧ FA.handle_push 3 (mkPushHeads "alice" "acme/widgets" "u" "main" false []) =
        .ok (["\x02" ++ "alice" ++ "\x02 has pushed to " ++ "acme/widgets" ++ "/" ++ "main"], 202) :=
  ⟨by decide,
   (C6_zero_commit_push 3 "alice" "acme/widgets" "u" "main" 0 (by decide)).1⟩

/-- C8 (amended): for a push event whose ref is a string that does not
split into exactly three "/"-separated parts (all other expected fields
present), the parser never raises: it substitutes the placeholder pair
("<unknown>", "<unknown>").  In the Azure function the non-deleted
event then degrades to 501 Not-Implemented with nothing delivered; in the
aiohttp service the handler raises its Unsupported signal
(HTTPNotImplemented), which the ingress's bare except converts into a 500
Internal-Server-Error response — the whole request fails there instead of
degrading to 501. -/
theorem C8_ref_parsing_robustness (maxC : Nat)
    (refStr actor repo compare : String) (forced : Bool)
    (cs : List (String × String × String)) (r : Nat)
    (h3 : (pySplit refStr '/').length ≠ 3) :
    parseRef (mkPushEvent refStr actor repo compare forced false cs) =
      .ok ("<unknown>", "<unknown>")
    ∧ FA.handle_push maxC (mkPushEvent refStr actor repo compare forced false cs) =
        .ok ([], 501)
    ∧ WH.handle_push (mkPushEvent refStr actor repo compare forced false cs) =
        .error "HTTPNotImplemented"
    ∧ WH.on_request [] (mkJsonReq "push"
          (mkPushEvent refStr actor repo compare forced false cs)) r =
        ⟨500, "500: Internal Server Error", []⟩ := by
  refine ⟨parseRef_mkPushEvent_bad refStr actor repo compare forced false cs h3,
    fa_handle_push_bad_ref maxC refStr actor repo compare forced cs h3,
    wh_handle_push_bad_ref refStr actor repo compare forced cs h3, ?_⟩
  rw [wh_on_request_dispatch "push" (by decide) WH.handle_push rfl _ r,
    wh_handle_push_bad_ref refStr actor repo compare forced cs h3]

/-- C8 witness: the amended theorem at the one-part ref "oops". -/
theorem C8_ref_parsing_robustness_witness :
    ((pySplit "oops" '/').length ≠ 3)
    ∧ FA.handle_push 3 (mkPushEvent "oops" "alice" "acme/widgets" "u" false false []) =
        .ok ([], 501) :=
  ⟨by decide,
   (C8_ref_parsing_robustness 3 "oops" "alice" "acme/widgets" "u" false [] 0 (by decide)).2.1⟩

/-- C8 counterexample: with ref "oops" the aiohttp service fails the whole
request with 500 Internal-Server-Error rather than degrading to an
Unsupported outcome, contradicting the claim that the event never fails the
whole request. -/
theorem C8_counterexample :
    WH.on_request []
        (mkJsonReq "push" (mkPushEvent "oops" "alice" "acme/widgets" "u" false false [])) 0 =
      ⟨500, "500: Internal Server Error", []⟩ := rfl

@[simp] theorem jget_action (v : JValue) (rest : List (String × JValue)) :
    (JValue.obj (("action", v) :: rest)).get "action" = .ok v := rfl

/-- C3 (amended): a payload missing an expected field makes the renderer
raise a lookup error (shown for an empty issues payload, which raises
KeyError on "action"); the aiohttp ingress catches every renderer fault and
maps it to a 500 Internal-Server-Error response with nothing delivered, and
the Azure wrapper likewise maps any propagating handler exception to a 500
with a placeholder body — the fault never escapes, but the outcome is 500
rather than the Skipped/Unsupported downgrade the claim requires. -/
theorem C3_renderer_faults (p : JValue) (r : Nat) (m : String)
    (h : WH.handle_issue p = .error m) :
    WH.handle_issue (JValue.obj []) = .error "KeyError: action"
    ∧ WH.on_request [] (mkJsonReq "issues" p) r = ⟨500, "500: Internal Server Error", []⟩
    ∧ (∀ m2 r2, FA.fn_main (.error (.exn m2)) r2 = ⟨500, some (randomChoice r2)⟩) := by
  refine ⟨rfl, ?_, fun m2 r2 => rfl⟩
  rw [wh_on_request_dispatch "issues" (by decide) WH.handle_issue rfl p r, h]

/-- C3 witness: the amended theorem at the concrete empty payload. -/
theorem C3_witness :
    WH.handle_issue (JValue.obj []) = .error "KeyError: action"
    ∧ WH.on_request [] (mkJsonReq "issues" (JValue.obj [])) 0 =
        ⟨500, "500: Internal Server Error", []⟩ :=
  ⟨rfl, (C3_renderer_faults (JValue.obj []) 0 "KeyError: action" rfl).2.1⟩

/-- C3 counterexample: an issues payload with no fields is mapped by the
aiohttp ingress to 500 Internal-Server-Error, contradicting the claim that
a missing expected field never yields Internal-Server-Error. -/
theorem C3_counterexample :
    WH.on_request [] (mkJsonReq "issues" (JValue.obj [])) 0 =
      ⟨500, "500: Internal Server Error", []⟩ := rfl

/-- C4 counterexample: an issues event with the non-acted action "labeled"
makes the Azure function answer 501 Not-Implemented, not 202 Accepted as
the claim requires. -/
theorem C4_counterexample :
    (FA.main "" 3 "w" (mkJsonReq "issues" (.obj [("action", .str "labeled")])) 0).status = 501
    ∧ (501 : Nat) ≠ 202 := ⟨rfl, by decide⟩

/-- C4 (amended): two independent universals.  For every issues event whose
action lies outside {opened, deleted, closed, reopened}, and separately for
every pull_request event whose action lies outside
{opened, closed, ready_for_review, reopened}, neither service delivers
anything; the aiohttp service answers 202 Accepted, but the Azure function
handlers return 501 Not-Implemented, which the wrapper sends with a
placeholder body. -/
theorem C4_skipped_actions (act : JValue) (rest rest2 : List (String × JValue))
    (maxC : Nat) (who : String) (r : Nat) :
    (((act.eqStr "opened" || act.eqStr "deleted" || act.eqStr "closed" ||
        act.eqStr "reopened") = false) →
      WH.handle_issue (.obj (("action", act) :: rest)) = .ok []
      ∧ WH.on_request [] (mkJsonReq "issues" (.obj (("action", act) :: rest))) r =
          ⟨202, "Accepted", []⟩
      ∧ FA.handle_issue (.obj (("action", act) :: rest)) = .ok ([], 501)
      ∧ FA.main "" maxC who (mkJsonReq "issues" (.obj (("action", act) :: rest))) r =
          ⟨501, some (randomChoice r)⟩)
    ∧ (((act.eqStr "opened" || act.eqStr "closed" ||
        act.eqStr "ready_for_review" || act.eqStr "reopened") = false) →
      WH.handle_pull_request (.obj (("action", act) :: rest2)) = .ok []
      ∧ WH.on_request [] (mkJsonReq "pull_request" (.obj (("action", act) :: rest2))) r =
          ⟨202, "Accepted", []⟩
      ∧ FA.handle_pull_request (.obj (("action", act) :: rest2)) = .ok ([], 501)
      ∧ FA.main "" maxC who (mkJsonReq "pull_request" (.obj (("action", act) :: rest2))) r =
          ⟨501, some (randomChoice r)⟩) := by
  constructor
  · intro ha
    have hwi : WH.handle_issue (.obj (("action", act) :: rest)) = .ok [] := by
      unfold WH.handle_issue
      rw [jget_action]
      simp only [except_bind_ok, ha, Bool.false_eq_true, not_false_eq_true,
        if_true, except_pure_eq]
    have hfi : FA.handle_issue (.obj (("action", act) :: rest)) = .ok ([], 501) := by
      unfold FA.handle_issue
      rw [jget_action]
      simp only [except_bind_ok, ha, Bool.false_eq_true, not_false_eq_true,
        if_true, except_pure_eq]
    refine ⟨hwi, ?_, hfi, ?_⟩
    · rw [wh_on_request_dispatch "issues" (by decide) WH.handle_issue rfl _ r, hwi]
    · rw [fa_main_dispatch "issues" maxC who FA.handle_issue rfl _ r, hfi]
      rfl
  · intro hpr
    simp only [Bool.or_eq_false_iff] at hpr
    obtain ⟨⟨⟨h1, h2⟩, h3⟩, h4⟩ := hpr
    have hphrase : ∀ e2 : JValue, prActionPhrase e2 act = .ok none := by
      intro e2
      unfold prActionPhrase
      simp only [h1, h2, h3, h4]
      rfl
    have hwpr : WH.handle_pull_request (.obj (("action", act) :: rest2)) = .ok [] := by
      unfold WH.handle_pull_request
      rw [jget_action]
      simp only [except_bind_ok, hphrase]
    have hfpr : FA.handle_pull_request (.obj (("action", act) :: rest2)) = .ok ([], 501) := by
      unfold FA.handle_pull_request
      rw [jget_action]
      simp only [except_bind_ok, hphrase]
    refine ⟨hwpr, ?_, hfpr, ?_⟩
    · rw [wh_on_request_dispatch "pull_request" (by decide)
        WH.handle_pull_request rfl _ r, hwpr]
    · rw [fa_main_dispatch "pull_request" maxC who
        FA.handle_pull_request rfl _ r, hfpr]
      rfl

/-- C4 witness: the issues half at the action "ready_for_review" (outside
the issues acted set although inside the pull-request one) and the
pull-request half at the action "deleted" (outside the pull-request acted
set although inside the issues one). -/
theorem C4_witness :
    WH.handle_issue (.obj [("action", .str "ready_for_review")]) = .ok []
    ∧ FA.handle_issue (.obj [("action", .str "ready_for_review")]) = .ok ([], 501)
    ∧ WH.handle_pull_request (.obj [("action", .str "deleted")]) = .ok []
    ∧ FA.handle_pull_request (.obj [("action", .str "deleted")]) = .ok ([], 501) :=
  ⟨((C4_skipped_actions (.str "ready_for_review") [] [] 3 "w" 0).1 (by decide)).1,
   ((C4_skipped_actions (.str "ready_for_review") [] [] 3 "w" 0).1 (by decide)).2.2.1,
   ((C4_skipped_actions (.str "deleted") [] [] 3 "w" 0).2 (by decide)).1,
   ((C4_skipped_actions (.str "deleted") [] [] 3 "w" 0).2 (by decide)).2.2.1⟩

/-- C5: for a notification whose lines are free of newlines and carriage
returns, the sink delivers, for every channel, exactly the lines in order
as separate protocol messages (one pydle message/notice call per channel,
split on newlines by the protocol layer), and no protocol message ever
contains an embedded newline. -/
theorem C5_per_line_delivery (channels : List String) (lines : List String)
    (hne : lines ≠ []) (hl : ∀ l ∈ lines, '\n' ∉ l.data ∧ '\r' ∉ l.data) :
    IRC.send_notification channels (pyJoinNL lines) = channels.map (fun c => (c, lines))
    ∧ (∀ (text : String) (m : String), m ∈ IRC.pydle_message_lines text → '\n' ∉ m.data) := by
  constructor
  · have key : IRC.pydle_message_lines (pyJoinNL lines) = lines := by
      unfold IRC.pydle_message_lines pyJoinNL
      have hfil : (joinChar '\n' (lines.map String.data)).filter (fun c => c ≠ '\r') =
          joinChar '\n' (lines.map String.data) := by
        apply List.filter_eq_self.mpr
        intro a hmem
        rcases mem_joinChar hmem with he | ⟨l2, hl2, hx⟩
        · simp [he]
        · obtain ⟨s2, hs2, rfl⟩ := List.mem_map.mp hl2
          have := (hl s2 hs2).2
          simp
          intro hcon
          exact this (hcon ▸ hx)
      rw [pySplit]
      show ((splitChar '\n' (String.mk ((joinChar '\n' (lines.map String.data)).filter
        (fun c => c ≠ '\r'))).data).map (fun l => (⟨l⟩ : String))) = lines
      rw [show (String.mk ((joinChar '\n' (lines.map String.data)).filter
        (fun c => c ≠ '\r'))).data = (joinChar '\n' (lines.map String.data)).filter
        (fun c => c ≠ '\r') from rfl]
      rw [hfil]
      rw [splitChar_joinChar (by simpa using hne)
        (fun l hld => by
          obtain ⟨s2, hs2, rfl⟩ := List.mem_map.mp hld
          exact (hl s2 hs2).1)]
      rw [List.map_map]
      have : ((fun l => (⟨l⟩ : String)) ∘ String.data) = id := by
        funext x
        rfl
      rw [this, List.map_id]
  -- use key
    unfold IRC.send_notification
    rw [key]
  · intro text m hm
    unfold IRC.pydle_message_lines pySplit at hm
    obtain ⟨p, hp, rfl⟩ := List.mem_map.mp hm
    exact not_mem_splitChar_self '\n' _ p hp

/-- C5 witness: two lines delivered to two channels in order. -/
theorem C5_per_line_delivery_witness :
    (["l1", "l2"] : List String) ≠ []
    ∧ (∀ l ∈ (["l1", "l2"] : List String), '\n' ∉ l.data ∧ '\r' ∉ l.data)
    ∧ IRC.send_notification ["#a", "#b"] (pyJoinNL ["l1", "l2"]) =
        (["#a", "#b"] : List String).map (fun c => (c, ["l1", "l2"])) :=
  ⟨by decide, by decide,
   (C5_per_line_delivery ["#a", "#b"] ["l1", "l2"] (by decide) (by decide)).1⟩
